import Mathlib

/-!
Verification of the federated GraphQL query planner core
(`graphql_query_planner`), shallowly embedded in Lean 4.

The embedding follows `build_query_plan.py`, `field_set.py` and
`query_plan.py`.  GraphQL AST nodes are modelled structurally; machine
behaviour of Python containers (list index `[-1]` raising `IndexError`
on an empty list, `dict[key]` raising `KeyError` on a missing key,
`dict` insertion order) is modelled explicitly.  Planner context
methods whose bodies are elided in the source (marked `TODO`/`pass`)
are modelled from the specification and carry a doc comment saying so.
-/

namespace QueryPlanner

/-- Kind of a GraphQL operation (`graphql.OperationType`). -/
inductive OperationType where
  | query
  | mutation
  | subscription
deriving DecidableEq, Repr

/-- AST type references (`NamedTypeNode` / `ListTypeNode` / `NonNullTypeNode`),
also standing in for schema type wrappers unwrapped by `add_path`. -/
inductive TypeNode where
  | named (name : String)
  | list (ofType : TypeNode)
  | nonNull (ofType : TypeNode)
deriving DecidableEq, Repr

/-- GraphQL selection nodes.  `FieldNode`, `InlineFragmentNode` and
`FragmentSpreadNode` are the three selection kinds dispatched on in
`collect_fields`.  A selection set (`SelectionSetNode`) is represented by
its list of selections; argument values are variable names (the only
argument the planner ever constructs is `representations: $representations`),
and directives are represented by their names. -/
inductive SelectionNode where
  | field (alias? : Option String) (name : String)
      (arguments : List (String × String)) (directives : List String)
      (selectionSet : Option (List SelectionNode))
  | inlineFragment (typeCondition : Option String) (directives : List String)
      (selectionSet : List SelectionNode)
  | fragmentSpread (name : String) (directives : List String)

/-- A selection set, as the list of its selections. -/
abbrev SelectionSetNode := List SelectionNode

mutual

/-- Canonical serialization of a selection node, used as the identity of a
selection set (the original JavaScript code keyed the internal-fragment table
by `JSON.stringify(selectionSet)`; the Python port keys it by the AST node's
structural hash).  Structurally equal nodes serialize equally. -/
def selNodeKey : SelectionNode → String
  | .field alias? name arguments directives selectionSet =>
      "F(" ++ (match alias? with | some a => a | none => "") ++ ";" ++ name
        ++ ";" ++ String.intercalate "," (arguments.map (fun p => p.1 ++ ":" ++ p.2))
        ++ ";" ++ String.intercalate "," directives
        ++ ";" ++ (match selectionSet with
                    | some ss => "\x7b" ++ selSetKey ss ++ "\x7d"
                    | none => "") ++ ")"
  | .inlineFragment typeCondition directives selectionSet =>
      "I(" ++ (match typeCondition with | some t => t | none => "") ++ ";"
        ++ String.intercalate "," directives
        ++ ";\x7b" ++ selSetKey selectionSet ++ "\x7d)"
  | .fragmentSpread name directives =>
      "S(" ++ name ++ ";" ++ String.intercalate "," directives ++ ")"

/-- Canonical serialization of a selection set. -/
def selSetKey : SelectionSetNode → String
  | [] => ""
  | s :: rest => selNodeKey s ++ " " ++ selSetKey rest

end

/-- A schema field definition as the planner consumes it (`shims.GraphQLField`):
a field name plus the wrapped return type. -/
structure FieldDef where
  name : String
  type : TypeNode

/-- Lexical scope of a field occurrence (`field_set.Scope`).  Types are
referred to by name.  The source also stores an `enclosing_scope`
back-reference, documented as being for diagnostics only and never read by
the planner; it is omitted here because keeping it would make the structure
recursive without influencing any planner decision. -/
structure Scope where
  parentType : String
  possibleTypes : List String
  directives : Option (List String) := none

/-- A collected field occurrence (`field_set.Field`): scope, the AST field
node, and the resolved field definition. -/
structure Field where
  scope : Scope
  fieldNode : SelectionNode
  fieldDef : FieldDef

/-- An ordered field set (`field_set.FieldSet`). -/
abbrev FieldSet := List Field

/-- Embeds `field_set.matches_field`: the curried matcher compares only the
field definitions' names (the source carries a TODO to also compare parent
type and arguments). -/
def matchesField (field : Field) : Field → Bool :=
  fun otherField => field.fieldDef.name == otherField.fieldDef.name

/-- Embeds `utilities.graphql_.get_response_name`: alias if present, else the
field name.  The source only ever applies it to field nodes; non-field
selections (impossible by the source's typing) map to the empty string. -/
def getResponseName : SelectionNode → String
  | .field (some a) _ _ _ _ => a
  | .field none name _ _ _ => name
  | _ => ""

/-- A fragment definition (`FragmentDefinitionNode`): name, type condition
(by type name), and selection set. -/
structure FragmentDefinitionNode where
  name : String
  typeCondition : String
  selectionSet : SelectionSetNode

/-- A variable definition (`VariableDefinitionNode`), with the variable's
name standing in for its `VariableNode`. -/
structure VariableDefinitionNode where
  variableName : String
  type : TypeNode

/-- An operation definition as emitted into outbound documents
(`OperationDefinitionNode`).  The planner constructs these with an optional
operation kind. -/
structure OperationDefinitionNode where
  operation : Option OperationType
  variableDefinitions : List VariableDefinitionNode
  selectionSet : SelectionSetNode

/-- An executable definition in an outbound document (`DefinitionNode`). -/
inductive DefinitionNode where
  | operation (node : OperationDefinitionNode)
  | fragment (node : FragmentDefinitionNode)

/-- A GraphQL document (`DocumentNode`). -/
structure DocumentNode where
  definitions : List DefinitionNode

/-- The client operation handed to the planner (`OperationDefinitionNode`
of the parsed operation): its kind and its selection set. -/
structure ClientOperation where
  operation : OperationType
  selectionSet : SelectionSetNode

/-- AST node attached to a raised `GraphQLError`: either the client
operation (subscription rejection) or an offending selection node. -/
inductive ErrNode where
  | clientOp (op : ClientOperation)
  | selection (node : SelectionNode)

/-- Python-level failures the planner code can raise: `IndexError` from
`fetch_groups[-1]` on an empty list, `KeyError` from an uninitialized
`dict` lookup, `GraphQLError` with a message and offending nodes, the
generic `Exception` raised by `flat_wrap` on an empty node list, and
`RecursionError` standing for exhausted recursion depth. -/
inductive PyErr where
  | indexError
  | keyError (key : String)
  | graphQLError (message : String) (nodes : List ErrNode)
  | programmingError (message : String)
  | recursionError

/-- Response paths (`query_plan.ResponsePath`): field response names and the
`"@"` sentinel for list traversal. -/
abbrev ResponsePath := List String

/-- List markers accumulated by the unwrapping loop of `add_path`: one `"@"`
per list wrapper, in unwrapping order. -/
def listMarkers : TypeNode → List String
  | .named _ => []
  | .list t => "@" :: listMarkers t
  | .nonNull t => listMarkers t

/-- Embeds `build_query_plan.add_path`: copy the path, append the response
name, then append `"@"` for each list wrapper while unwrapping the type. -/
def addPath (path : ResponsePath) (responseName : String) (type : TypeNode) :
    ResponsePath :=
  path ++ [responseName] ++ listMarkers type

/-- A fetch group (`build_query_plan.FetchGroup`).  The two dependent-group
channels are the service-keyed map `_dependent_groups_by_service` (modelled
as an insertion-ordered association list, matching Python `dict` order) and
the list `other_dependent_groups`.  Python `set` state
(`internal_fragments`) is modelled as an insertion-ordered duplicate-free
list. -/
inductive FetchGroup where
  | mk (serviceName : String)
      (fields : FieldSet)
      (internalFragments : List FragmentDefinitionNode)
      (requiredFields : FieldSet)
      (providedFields : FieldSet)
      (mergeAt : Option ResponsePath)
      (dependentGroupsByService : List (String × FetchGroup))
      (otherDependentGroups : List FetchGroup)

/-- Projection: `FetchGroup.service_name`. -/
def FetchGroup.serviceName : FetchGroup → String
  | .mk s _ _ _ _ _ _ _ => s

/-- Projection: `FetchGroup.fields`. -/
def FetchGroup.fields : FetchGroup → FieldSet
  | .mk _ f _ _ _ _ _ _ => f

/-- Projection: `FetchGroup.internal_fragments`. -/
def FetchGroup.internalFragments : FetchGroup → List FragmentDefinitionNode
  | .mk _ _ i _ _ _ _ _ => i

/-- Projection: `FetchGroup.required_fields`. -/
def FetchGroup.requiredFields : FetchGroup → FieldSet
  | .mk _ _ _ r _ _ _ _ => r

/-- Projection: `FetchGroup.provided_fields`. -/
def FetchGroup.providedFields : FetchGroup → FieldSet
  | .mk _ _ _ _ p _ _ _ => p

/-- Projection: `FetchGroup.merge_at`. -/
def FetchGroup.mergeAt : FetchGroup → Option ResponsePath
  | .mk _ _ _ _ _ m _ _ => m

/-- Projection: `FetchGroup._dependent_groups_by_service`. -/
def FetchGroup.dependentGroupsByService : FetchGroup → List (String × FetchGroup)
  | .mk _ _ _ _ _ _ d _ => d

/-- Projection: `FetchGroup.other_dependent_groups`. -/
def FetchGroup.otherDependentGroups : FetchGroup → List FetchGroup
  | .mk _ _ _ _ _ _ _ o => o

/-- Embeds `FetchGroup.__init__` called as `FetchGroup(service_name)`: fresh
empty fields, fragments, required/provided fields, `merge_at = None`, empty
dependent-group map and list. -/
def FetchGroup.new (serviceName : String) : FetchGroup :=
  .mk serviceName [] [] [] [] none [] []

/-- Replace the `fields` component (a Python in-place mutation). -/
def FetchGroup.setFields : FetchGroup → FieldSet → FetchGroup
  | .mk s _ i r p m d o, f => .mk s f i r p m d o

/-- Replace the `required_fields` component. -/
def FetchGroup.setRequiredFields : FetchGroup → FieldSet → FetchGroup
  | .mk s f i _ p m d o, r => .mk s f i r p m d o

/-- Replace the `merge_at` component. -/
def FetchGroup.setMergeAt : FetchGroup → Option ResponsePath → FetchGroup
  | .mk s f i r p _ d o, m => .mk s f i r p m d o

/-- Replace the dependent-group map. -/
def FetchGroup.setDependentGroupsByService :
    FetchGroup → List (String × FetchGroup) → FetchGroup
  | .mk s f i r p m _ o, d => .mk s f i r p m d o

/-- Replace the `provided_fields` component. -/
def FetchGroup.setProvidedFields : FetchGroup → FieldSet → FetchGroup
  | .mk s f i r _ m d o, p => .mk s f i r p m d o

/-- Embeds the `FetchGroup.dependent_groups` property: the map's values
followed by `other_dependent_groups`. -/
def FetchGroup.dependentGroups (g : FetchGroup) : List FetchGroup :=
  g.dependentGroupsByService.map Prod.snd ++ g.otherDependentGroups

/-- Association-list lookup modelling `dict.get` on the service-keyed
dependent-group map. -/
def lookupEntry : List (String × FetchGroup) → String → Option FetchGroup
  | [], _ => none
  | (k, v) :: rest, key => if k == key then some v else lookupEntry rest key

/-- Association-list store modelling `dict[key] = value`: replace in place
when the key exists (Python dicts keep the original position), append
otherwise. -/
def storeEntry : List (String × FetchGroup) → String → FetchGroup →
    List (String × FetchGroup)
  | [], key, value => [(key, value)]
  | (k, v) :: rest, key, value =>
      if k == key then (key, value) :: rest
      else (k, v) :: storeEntry rest key value

/-- Embeds `FetchGroup.dependent_group_for_service`.  Looks up the child for
`serviceName`, creating it (with `merge_at` copied from the parent) when
absent; when `required_fields` is non-empty, appends it to the child's
`required_fields` (the source assigns when the child's list is empty and
extends otherwise — identical contents) and extends the parent's `fields`
with the same selections.  Python mutates `self` and the child in place and
the map aliases the child; here the updated parent (with the child stored)
and the updated child are returned as a pair. -/
def FetchGroup.dependentGroupForService (self : FetchGroup)
    (serviceName : String) (requiredFields : FieldSet) :
    FetchGroup × FetchGroup :=
  let group :=
    match lookupEntry self.dependentGroupsByService serviceName with
    | some g => g
    | none => (FetchGroup.new serviceName).setMergeAt self.mergeAt
  let group :=
    if requiredFields.isEmpty then group
    else if group.requiredFields.isEmpty then
      group.setRequiredFields requiredFields
    else
      group.setRequiredFields (group.requiredFields ++ requiredFields)
  let newFields :=
    if requiredFields.isEmpty then self.fields
    else self.fields ++ requiredFields
  let self :=
    (self.setFields newFields).setDependentGroupsByService
      (storeEntry self.dependentGroupsByService serviceName group)
  (self, group)

/-- Trimmed selection nodes of a query plan (`query_plan.QueryPlanSelectionNode`):
fields and inline fragments only — fragment spreads cannot occur in a
`requires` list. -/
inductive QueryPlanSelectionNode where
  | field (alias? : Option String) (name : String)
      (selections : Option (List QueryPlanSelectionNode))
  | inlineFragment (typeCondition : Option String)
      (selections : List QueryPlanSelectionNode)

mutual

/-- Modelled from the spec: `query_plan.trim_selection_nodes` is elided in
the source (`TODO`); per the spec a `Fetch.requires` is "a trimmed
selection-node list", and fragment spreads cannot appear in it.  Trims one
selection node, dropping fragment spreads. -/
def trimSelectionNode : SelectionNode → Option QueryPlanSelectionNode
  | .field alias? name _ _ selectionSet =>
      some (.field alias? name
        (match selectionSet with
          | some ss => some (trimSelectionNodes ss)
          | none => none))
  | .inlineFragment typeCondition _ selectionSet =>
      some (.inlineFragment typeCondition (trimSelectionNodes selectionSet))
  | .fragmentSpread _ _ => none

/-- Modelled from the spec: trims a selection list (see `trimSelectionNode`). -/
def trimSelectionNodes : List SelectionNode → List QueryPlanSelectionNode
  | [] => []
  | s :: rest =>
      match trimSelectionNode s with
      | some q => q :: trimSelectionNodes rest
      | none => trimSelectionNodes rest

end

/-- The data of a `query_plan.FetchNode`.  The source stores the operation
as the canonical printed, whitespace-stripped string of the document
(`strip_ignored_characters(print_ast(operation))`); printing is performed by
the external GraphQL library, so the document itself is kept here. -/
structure FetchNodeData where
  serviceName : String
  variableUsages : List String
  requires : Option (List QueryPlanSelectionNode)
  operation : DocumentNode

/-- Plan nodes (`query_plan.PlanNode`): the `Sequence`, `Parallel`, `Fetch`
and `Flatten` variants. -/
inductive PlanNode where
  | sequence (nodes : List PlanNode)
  | parallel (nodes : List PlanNode)
  | fetch (node : FetchNodeData)
  | flatten (path : ResponsePath) (node : PlanNode)

/-- The emitted plan (`query_plan.QueryPlan`): an optional root node. -/
structure QueryPlan where
  node : Option PlanNode

/-- The two wrapper kinds accepted by `flat_wrap`. -/
inductive WrapKind where
  | parallel
  | sequence
deriving DecidableEq

/-- The per-node expansion `flat_wrap` applies in its `Parallel` branch:
a `Parallel` child contributes its sub-nodes, any other child contributes
itself (`flat_map(nodes, lambda n: n.nodes if n.kind == kind else [n])`). -/
def expandParallel : PlanNode → List PlanNode
  | .parallel ns => ns
  | n => [n]

/-- Embeds `polyfill.flat_map` at list-returning callbacks: concatenate the
per-element results in order. -/
def flatMapList {α β : Type} (l : List α) (f : α → List β) : List β :=
  match l with
  | [] => []
  | x :: rest => f x ++ flatMapList rest f

/-- Embeds `build_query_plan.flat_wrap`: empty input raises the programmer
error; a single node is returned directly; otherwise a `Parallel` node with
same-kind immediate children flattened, or a `Sequence` node with its
children unflattened (the Python code only flattens in the `Parallel`
branch). -/
def flatWrap (kind : WrapKind) (nodes : List PlanNode) : Except PyErr PlanNode :=
  match nodes with
  | [] => .error (.programmingError "programming error: should always be called with nodes")
  | [n] => .ok n
  | _ =>
      match kind with
      | .parallel => .ok (.parallel (flatMapList nodes expandParallel))
      | .sequence => .ok (.sequence nodes)

/-- The `$representations: [_Any!]!` variable definition prepended by
`operation_for_entities_fetch`. -/
def representationsVariableDefinition : VariableDefinitionNode :=
  { variableName := "representations"
    type := .nonNull (.list (.nonNull (.named "_Any"))) }

/-- Variable usages (`VariableUsages`): variable name to its definition, in
`dict` insertion order. -/
abbrev VariableUsages := List (String × VariableDefinitionNode)

/-- Embeds `map_fetch_node_to_variable_definitions`: the usages map's
values. -/
def mapFetchNodeToVariableDefinitions (variableUsages : VariableUsages) :
    List VariableDefinitionNode :=
  variableUsages.map Prod.snd

/-- Embeds `operation_for_root_fetch`: one operation definition of the given
kind with the collected variable definitions and selection set, followed by
the internal fragments. -/
def operationForRootFetch (selectionSet : SelectionSetNode)
    (variableUsages : VariableUsages)
    (internalFragments : List FragmentDefinitionNode)
    (operation : Option OperationType) : DocumentNode :=
  { definitions :=
      DefinitionNode.operation
        { operation := operation
          variableDefinitions := mapFetchNodeToVariableDefinitions variableUsages
          selectionSet := selectionSet }
      :: internalFragments.map DefinitionNode.fragment }

/-- Embeds `operation_for_entities_fetch`: a query whose variable
definitions start with `$representations: [_Any!]!` followed by the
collected definitions, and whose single top-level selection is
`_entities(representations: $representations)` wrapping the given selection
set; internal fragments follow the operation definition. -/
def operationForEntitiesFetch (selectionSet : SelectionSetNode)
    (variableUsages : VariableUsages)
    (internalFragments : List FragmentDefinitionNode) : DocumentNode :=
  { definitions :=
      DefinitionNode.operation
        { operation := some .query
          variableDefinitions :=
            representationsVariableDefinition
              :: mapFetchNodeToVariableDefinitions variableUsages
          selectionSet :=
            [SelectionNode.field none "_entities"
              [("representations", "representations")] []
              (some selectionSet)] }
      :: internalFragments.map DefinitionNode.fragment }

/-- Modelled from the spec: the planner stages whose bodies are elided in
the source are supplied as functions.
`selectionSetFromFieldSet` stands for `field_set.selection_set_from_field_set`
(its helpers `wrap_in_inline_fragment_if_needed` and `combine_fields` are
`TODO` stubs in the source); per the spec it builds the selection set printed
for a group's accumulated fields.
`getVariableUsages` stands for `QueryPlanningContext.get_variable_usages`
(a `TODO` stub); per the spec it walks the selection set and fragments
collecting every referenced variable with its definition from the operation.
`splitRootGroups` stands for the field-collection plus root-splitting stage
(`collect_fields` with the elided `new_scope`, then `split_root_fields` or
`split_root_fields_serially` depending on the flag); it yields the root
fetch groups, or the error this stage raises.
`rootType` stands for `get_operation_root_type`. -/
structure PlanningEnv where
  selectionSetFromFieldSet : FieldSet → Option String → SelectionSetNode
  getVariableUsages :
    SelectionSetNode → List FragmentDefinitionNode → VariableUsages
  splitRootGroups : Bool → Except PyErr (List FetchGroup)
  rootType : String

/-- Embeds the fetch-node construction of `execution_node_for_group`
(build the group's selection set; build `requires` from `required_fields`
iff non-empty; collect variable usages; build the entities-fetch document
when `requires` is present and the plain root-fetch document otherwise;
assemble the `FetchNode`). -/
def fetchNodeForGroup (env : PlanningEnv) (operationKind : OperationType)
    (group : FetchGroup) (parentType : Option String) : FetchNodeData :=
  let selectionSet := env.selectionSetFromFieldSet group.fields parentType
  let requires :=
    if group.requiredFields.length > 0 then
      some (env.selectionSetFromFieldSet group.requiredFields none)
    else none
  let variableUsages := env.getVariableUsages selectionSet group.internalFragments
  let operation :=
    match requires with
    | some _ =>
        operationForEntitiesFetch selectionSet variableUsages
          group.internalFragments
    | none =>
        operationForRootFetch selectionSet variableUsages
          group.internalFragments (some operationKind)
  { serviceName := group.serviceName
    requires :=
      match requires with
      | some r => some (trimSelectionNodes r)
      | none => none
    variableUsages := variableUsages.map Prod.fst
    operation := operation }

/-- Embeds `execution_node_for_group`: build the fetch node, wrap it in a
`Flatten` when `merge_at` is non-empty, and when the group has dependent
groups recurse on them and return
`flat_wrap('Sequence', [node, flat_wrap('Parallel', dependent_nodes)])`.
Recursion depth is bounded by explicit fuel; exhausting it stands for
Python's `RecursionError`. -/
def executionNodeForGroup (env : PlanningEnv) :
    OperationType → Nat → FetchGroup → Option String → Except PyErr PlanNode
  | _, 0, _, _ => .error .recursionError
  | operationKind, fuel + 1, group, parentType =>
      let fetchNode := fetchNodeForGroup env operationKind group parentType
      let node : PlanNode :=
        match group.mergeAt with
        | some path =>
            if path.length > 0 then .flatten path (.fetch fetchNode)
            else .fetch fetchNode
        | none => .fetch fetchNode
      if group.dependentGroups.length > 0 then
        match group.dependentGroups.mapM
            (fun dependentGroup =>
              executionNodeForGroup env operationKind fuel dependentGroup none) with
        | .error e => .error e
        | .ok dependentNodes =>
            match flatWrap .parallel dependentNodes with
            | .error e => .error e
            | .ok wrapped => flatWrap .sequence [node, wrapped]
      else .ok node

/-- Embeds `build_query_plan`: reject subscriptions up front; split the root
fields (serially for mutations); emit one execution node per root group; the
plan's node is `None` for no groups, and otherwise the `flat_wrap` of the
nodes — `Sequence` for mutations, `Parallel` for queries. -/
def buildQueryPlan (env : PlanningEnv) (operation : ClientOperation)
    (fuel : Nat) : Except PyErr QueryPlan :=
  if operation.operation = OperationType.subscription then
    .error (.graphQLError "Query planning does not support subscriptions for now."
      [.clientOp operation])
  else
    let isMutation := operation.operation = OperationType.mutation
    match env.splitRootGroups isMutation with
    | .error e => .error e
    | .ok groups =>
        match groups.mapM
            (fun group =>
              executionNodeForGroup env operation.operation fuel group
                (some env.rootType)) with
        | .error e => .error e
        | .ok nodes =>
            if nodes.isEmpty then .ok { node := none }
            else
              match flatWrap (if isMutation then .sequence else .parallel) nodes with
              | .error e => .error e
              | .ok node => .ok { node := some node }

/-- Modelled from the spec: owning-service resolution for a root field.
`QueryPlanningContext.get_owning_service` is a `TODO` stub in the source, so
a root field reaching `group_for_field` is abstracted to its AST node plus
its resolved owning service (`None` when the metadata has no owner, which
the source turns into a `GraphQLError`). -/
structure RootFieldInfo where
  fieldNode : SelectionNode
  owningService : Option String

/-- Embeds `group_for_service` of `split_root_fields_serially`.  The source
first evaluates `fetch_groups[-1]`, which raises `IndexError` when the list
is empty; only then does it compare the previous group's service name (a
`FetchGroup` instance is always truthy, so the `if previous_group and ...`
guard reduces to the name comparison) and either batches into the previous
group or appends a fresh one. -/
def groupForServiceSerially (fetchGroups : List FetchGroup)
    (serviceName : String) : Except PyErr (List FetchGroup) :=
  match fetchGroups.getLast? with
  | none => .error .indexError
  | some previousGroup =>
      if previousGroup.serviceName == serviceName then .ok fetchGroups
      else .ok (fetchGroups ++ [FetchGroup.new serviceName])

/-- Embeds `group_for_field` of `split_root_fields_serially`: raise when the
owning service is unresolvable, else route through `group_for_service` (the
source's message interpolates the parent type and field names). -/
def groupForFieldSerially (fetchGroups : List FetchGroup)
    (field : RootFieldInfo) : Except PyErr (List FetchGroup) :=
  match field.owningService with
  | none =>
      .error (.graphQLError "Couldn\x27t find owning service for field"
        [.selection field.fieldNode])
  | some serviceName => groupForServiceSerially fetchGroups serviceName

/-- Embeds `split_root_fields_serially`: starting from an empty group list,
route each root field in order through `group_for_field`, and return the
ordered list of emitted groups. -/
def splitRootFieldsSerially (fields : List RootFieldInfo) :
    Except PyErr (List FetchGroup) :=
  fields.foldlM groupForFieldSerially []

/-- A generated internal fragment (`build_query_plan.InternalFragment`). -/
structure InternalFragment where
  name : String
  definition : FragmentDefinitionNode
  selectionSet : SelectionSetNode

/-- The slice of `QueryPlanningContext` the embedded operations touch:
the fragment map, the auto-fragmentization flag, the internal-fragment table
with its counter (both initialized empty/zero in `__init__`), and the schema
accessors `possibleTypesOf` (modelled from the spec: the concrete runtime
types of a composite type) and `fieldDefOf` (the schema lookup performed by
`utilities.graphql_.get_field_def`). -/
structure QueryPlanningContext where
  fragments : List (String × FragmentDefinitionNode)
  autoFragmentization : Bool
  internalFragments : List (String × InternalFragment)
  internalFragmentCount : Nat
  possibleTypesOf : String → List String
  fieldDefOf : String → String → Option FieldDef

/-- Embeds `QueryPlanningContext.__init__`: the internal-fragment table
starts empty and the fragment counter starts at zero. -/
def QueryPlanningContext.init (fragments : List (String × FragmentDefinitionNode))
    (autoFragmentization : Bool) (possibleTypesOf : String → List String)
    (fieldDefOf : String → String → Option FieldDef) : QueryPlanningContext :=
  { fragments := fragments
    autoFragmentization := autoFragmentization
    internalFragments := []
    internalFragmentCount := 0
    possibleTypesOf := possibleTypesOf
    fieldDefOf := fieldDefOf }

/-- Modelled from the spec: `QueryPlanningContext.new_scope` is a `TODO`
stub in the source.  Per the spec, the new scope's possible types are the
parent type's possible runtime types intersected with the enclosing scope's
possible types; directives start unset. -/
def newScope (ctx : QueryPlanningContext) (parentType : String)
    (enclosingScope : Option Scope) : Scope :=
  { parentType := parentType
    possibleTypes :=
      match enclosingScope with
      | some s =>
          (ctx.possibleTypesOf parentType).filter
            (fun t => s.possibleTypes.contains t)
      | none => ctx.possibleTypesOf parentType
    directives := none }

/-- The per-invocation visited-fragment state of `collect_fields`, a Python
`dict[FragmentName, bool]` modelled as an insertion-ordered association
list. -/
abbrev VisitedFragments := List (String × Bool)

/-- Models the Python expression `visited_fragment_names[fragment_name]`:
a plain-`dict` subscript, raising `KeyError` when the name is absent. -/
def visitedLookup : VisitedFragments → String → Except PyErr Bool
  | [], name => .error (.keyError name)
  | (k, v) :: rest, name =>
      if k == name then .ok v else visitedLookup rest name

/-- Models `visited_fragment_names[fragment_name] = True`. -/
def visitedStore : VisitedFragments → String → Bool → VisitedFragments
  | [], name, value => [(name, value)]
  | (k, v) :: rest, name, value =>
      if k == name then (name, value) :: rest
      else (k, v) :: visitedStore rest name value

/-- Models `context.fragments[fragment_name]`: a `dict` subscript on the
fragment map, raising `KeyError` when absent (the source's `None` guard is
commented out as unreachable). -/
def fragmentLookup : List (String × FragmentDefinitionNode) → String →
    Except PyErr FragmentDefinitionNode
  | [], name => .error (.keyError name)
  | (k, v) :: rest, name =>
      if k == name then .ok v else fragmentLookup rest name

/-- Embeds `collect_fields`.  Walks the selection set in order: a field node
resolves its definition (raising when the schema lookup fails, as
`QueryPlanningContext.get_field_def` does) and is appended; an inline
fragment computes the fragment-condition scope, skips it when the
intersection is empty, otherwise installs the fragment's directives on the
new scope and recurses; a fragment spread resolves the definition, computes
the scope, skips when empty, and then evaluates
`visited_fragment_names[fragment_name]` — a plain-`dict` subscript — before
marking and recursing.  The mutable `fields` list and visited `dict` are
threaded explicitly; fuel bounds the recursion (`RecursionError` when
exhausted). -/
def collectFields (ctx : QueryPlanningContext) :
    Nat → Scope → SelectionSetNode → FieldSet → VisitedFragments →
    Except PyErr (FieldSet × VisitedFragments)
  | 0, _, _, _, _ => .error .recursionError
  | _ + 1, _, [], fields, visited => .ok (fields, visited)
  | fuel + 1, scope, selection :: rest, fields, visited =>
      match selection with
      | .field _ name _ _ _ =>
          match ctx.fieldDefOf scope.parentType name with
          | none =>
              .error (.graphQLError
                ("Cannot query field " ++ name ++ " on type $\x7bparent_type\x7d")
                [.selection selection])
          | some fieldDef =>
              collectFields ctx fuel scope rest
                (fields ++ [{ scope := scope, fieldNode := selection, fieldDef := fieldDef }])
                visited
      | .inlineFragment typeCondition directives subSelections =>
          let conditionName :=
            match typeCondition with
            | some t => t
            | none => scope.parentType
          let fragmentScope := newScope ctx conditionName (some scope)
          if fragmentScope.possibleTypes.length == 0 then
            collectFields ctx fuel scope rest fields visited
          else
            let fragmentScope := { fragmentScope with directives := some directives }
            match collectFields ctx fuel fragmentScope subSelections fields visited with
            | .error e => .error e
            | .ok (fields', visited') =>
                collectFields ctx fuel scope rest fields' visited'
      | .fragmentSpread fragmentName _ =>
          match fragmentLookup ctx.fragments fragmentName with
          | .error e => .error e
          | .ok fragment =>
              let fragmentScope := newScope ctx fragment.typeCondition (some scope)
              if fragmentScope.possibleTypes.length == 0 then
                collectFields ctx fuel scope rest fields visited
              else
                match visitedLookup visited fragmentName with
                | .error e => .error e
                | .ok alreadyVisited =>
                    if alreadyVisited then
                      collectFields ctx fuel scope rest fields visited
                    else
                      let visited' := visitedStore visited fragmentName true
                      match collectFields ctx fuel fragmentScope
                          fragment.selectionSet fields visited' with
                      | .error e => .error e
                      | .ok (fields', visited'') =>
                          collectFields ctx fuel scope rest fields' visited''

/-- Association-list lookup on a string-keyed table (`dict.get` /
`key in dict`). -/
def tableLookup {α : Type} : List (String × α) → String → Option α
  | [], _ => none
  | (k, v) :: rest, key => if k == key then some v else tableLookup rest key

/-- Embeds `get_internal_fragment`: key the table by the selection set's
canonical identity (see `selSetKey`); on a miss, generate
`__QueryPlanFragment_N` from the context counter, increment the counter,
store the definition together with the spread-only replacement selection
set; on a hit, return the stored fragment unchanged. -/
def getInternalFragment (selectionSet : SelectionSetNode)
    (returnTypeName : String) (ctx : QueryPlanningContext) :
    InternalFragment × QueryPlanningContext :=
  let key := selSetKey selectionSet
  match tableLookup ctx.internalFragments key with
  | some fragment => (fragment, ctx)
  | none =>
      let name := "__QueryPlanFragment_" ++ toString ctx.internalFragmentCount
      let definition : FragmentDefinitionNode :=
        { name := name, typeCondition := returnTypeName
          selectionSet := selectionSet }
      let fragmentSelection : SelectionSetNode := [.fragmentSpread name []]
      let fragment : InternalFragment :=
        { name := name, definition := definition
          selectionSet := fragmentSelection }
      (fragment,
       { ctx with
          internalFragments := ctx.internalFragments ++ [(key, fragment)]
          internalFragmentCount := ctx.internalFragmentCount + 1 })

/-- Structural equality test on fragment definitions, with selection sets
compared through their canonical serialization — the content equality a
Python `set` of AST nodes applies. -/
def fragEq (d d' : FragmentDefinitionNode) : Bool :=
  d.name == d'.name && d.typeCondition == d'.typeCondition
    && selSetKey d.selectionSet == selSetKey d'.selectionSet

/-- Models `set.add` on a group's `internal_fragments`: keep the set
unchanged when a structurally equal definition is present, append
otherwise. -/
def fragmentSetAdd (s : List FragmentDefinitionNode)
    (d : FragmentDefinitionNode) : List FragmentDefinitionNode :=
  if s.any (fun d' => fragEq d' d) then s else s ++ [d]

/-- Models `set.update` on `internal_fragments`. -/
def fragmentSetUnion (s t : List FragmentDefinitionNode) :
    List FragmentDefinitionNode :=
  t.foldl fragmentSetAdd s

/-- Models `copy(field_node)` followed by assigning the copy's
`selection_set` (`complete_field` only ever copies field nodes). -/
def SelectionNode.withSelectionSet : SelectionNode → SelectionSetNode → SelectionNode
  | .field alias? name arguments directives _, ss =>
      .field alias? name arguments directives (some ss)
  | node, _ => node

/-- The selection set attached to a selection node, when any. -/
def SelectionNode.selectionSetOf : SelectionNode → Option SelectionSetNode
  | .field _ _ _ _ ss => ss
  | .inlineFragment _ _ ss => some ss
  | .fragmentSpread _ _ => none

/-- Embeds the composite-return tail of `complete_field` (the code after
`split_subfields` returns): build the sub-group's selection set; when
auto-fragmentization is on and the sub-group holds more than two fields,
swap the selection set for the generated fragment's spread and add the
fragment definition to the parent group's `internal_fragments`; hoist the
sub-group's internal fragments into the parent's; return the copied field
node carrying the final selection set.  The sub-group's fields and internal
fragments are passed in because the upstream sub-field collection
(`collect_subfields`) and splitting are elided in the source. -/
def completeFieldSelection (env : PlanningEnv) (ctx : QueryPlanningContext)
    (parentGroupInternalFragments : List FragmentDefinitionNode)
    (subGroupFields : FieldSet)
    (subGroupInternalFragments : List FragmentDefinitionNode)
    (returnTypeName : String) (fieldNode : SelectionNode) :
    SelectionNode × List FragmentDefinitionNode × QueryPlanningContext :=
  let selectionSet := env.selectionSetFromFieldSet subGroupFields (some returnTypeName)
  let step :=
    if ctx.autoFragmentization && subGroupFields.length > 2 then
      let (internalFragment, ctx') := getInternalFragment selectionSet returnTypeName ctx
      (internalFragment.selectionSet,
       fragmentSetAdd parentGroupInternalFragments internalFragment.definition,
       ctx')
    else (selectionSet, parentGroupInternalFragments, ctx)
  let parentFragments := fragmentSetUnion step.2.1 subGroupInternalFragments
  (fieldNode.withSelectionSet step.1, parentFragments, step.2.2)

/-- Per-type federation metadata as `split_subfields` consumes it: the
value-type flag (`FederationValueTypeMetadata.is_value_type = True`,
`FederationEntityTypeMetadata.is_value_type = False`). -/
structure FederationTypeMetadata where
  isValueType : Bool

/-- Modelled from the spec: the schema-derived accessors consumed by
`split_subfields.group_for_field`.  `typeMetadata` stands for
`get_federation_metadata_for_type` (schema extensions), `isObjectType` for
`graphql.is_object_type`, and the remaining four for the `TODO`-stubbed
`QueryPlanningContext` methods `get_base_service`, `get_owning_service`,
`get_key_fields` and `get_required_fields`. -/
structure SubfieldEnv where
  typeMetadata : String → Option FederationTypeMetadata
  isObjectType : String → Bool
  getBaseService : String → Option String
  getOwningService : String → FieldDef → Option String
  getKeyFields : String → String → FieldSet
  getRequiredFields : String → FieldDef → String → FieldSet

/-- Embeds the `parent_is_value_type` computation: when the type has
federation metadata, it is value-type-like when it is not an object type or
its metadata marks it a value type; with no metadata the walrus conditional
yields `None`, which is falsy. -/
def parentIsValueType (env : SubfieldEnv) (parentType : String) : Bool :=
  match env.typeMetadata parentType with
  | some metadata => !env.isObjectType parentType || metadata.isValueType
  | none => false

/-- Python truthiness of `not base_service` / `not owning_service`: `None`
and the empty string are both falsy. -/
def isFalsyService : Option String → Bool
  | none => true
  | some s => s.isEmpty

/-- The destination `split_subfields.group_for_field` selects for a field:
the parent group itself; a dependent group on the owning service created by
`parent_group.dependent_group_for_service(owning, reqs)`; or the two-hop
path through the base service
(`parent_group.dependent_group_for_service(base, keys)` followed by
`.dependent_group_for_service(owning, reqs)` on the result). -/
inductive SubfieldDestination where
  | parentGroupDest
  | dependentDest (owningService : String) (requiredFields : FieldSet)
  | twoHopDest (baseService : String) (keyFields : FieldSet)
      (owningService : String) (requiredFields : FieldSet)

/-- Embeds the decision tree of `split_subfields.group_for_field`
(build_query_plan.py lines 392-481), returning which group the field is
routed to.  Value-type-like parents pin both services to the parent group's
service; otherwise the base and owning services come from the metadata and
must be truthy.  A base-owned field stays in the parent group when the
parent's service owns it or the parent's `provided_fields` contains a
matching field, and otherwise rides a dependent entity fetch keyed by the
parent service's keys (falling back to the owning service's keys when only
a bare `__typename` key is found).  An extension field whose `@requires`
are all provided stays or becomes a dependent fetch by service; otherwise
it goes through the base group first, raising when no keys exist. -/
def groupForFieldSubfields (env : SubfieldEnv) (parentGroup : FetchGroup)
    (field : Field) : Except PyErr SubfieldDestination :=
  let parentType := field.scope.parentType
  let fieldDef := field.fieldDef
  let valueTypeLike := parentIsValueType env parentType
  let baseService? :=
    if valueTypeLike then some parentGroup.serviceName
    else env.getBaseService parentType
  let owningService? :=
    if valueTypeLike then some parentGroup.serviceName
    else env.getOwningService parentType fieldDef
  if isFalsyService baseService? then
    .error (.graphQLError ("Couldn\x27t find base service for type " ++ parentType)
      [.selection field.fieldNode])
  else if isFalsyService owningService? then
    .error (.graphQLError
      ("Couldn\x27t find owning service for field " ++ parentType ++ "." ++ fieldDef.name)
      [.selection field.fieldNode])
  else
    let baseService := baseService?.getD ""
    let owningService := owningService?.getD ""
    if owningService == baseService then
      if owningService == parentGroup.serviceName
          || parentGroup.providedFields.any (matchesField field) then
        .ok .parentGroupDest
      else
        let keyFields := env.getKeyFields parentType parentGroup.serviceName
        let keyFields :=
          match keyFields with
          | [] => env.getKeyFields parentType owningService
          | [k] =>
              if k.fieldDef.name == "__typename" then
                env.getKeyFields parentType owningService
              else keyFields
          | _ => keyFields
        .ok (.dependentDest owningService keyFields)
    else
      let requiredFields := env.getRequiredFields parentType fieldDef owningService
      if requiredFields.all
          (fun requiredField =>
            parentGroup.providedFields.any (matchesField requiredField)) then
        if owningService == parentGroup.serviceName then .ok .parentGroupDest
        else .ok (.dependentDest owningService requiredFields)
      else
        let keyFields := env.getKeyFields parentType parentGroup.serviceName
        if keyFields.isEmpty then
          .error (.graphQLError ("Couldn\x27t find keys for type " ++ parentType)
            [.selection field.fieldNode])
        else if baseService == parentGroup.serviceName then
          .ok (.dependentDest owningService requiredFields)
        else
          .ok (.twoHopDest baseService keyFields owningService requiredFields)

/-- The child `dependent_group_for_service` starts from: the stored entry
for the service, or a fresh group carrying the parent's `merge_at`. -/
def childBase (g : FetchGroup) (svc : String) : FetchGroup :=
  match lookupEntry g.dependentGroupsByService svc with
  | some c => c
  | none => (FetchGroup.new svc).setMergeAt g.mergeAt

/-- Parent-coverage invariant: every field demanded by a stored dependent
group has a matching field (by the planner's name-based matcher) among the
parent's own fields, so the parent fetch returns the entity inputs. -/
def parentCoversChildRequirements (g : FetchGroup) : Prop :=
  ∀ p ∈ g.dependentGroupsByService, ∀ f ∈ (Prod.snd p).requiredFields,
    ∃ f' ∈ g.fields, matchesField f f' = true

/-- A sample leaf plan node used by concrete witnesses. -/
def sampleFetch (s : String) : PlanNode :=
  .fetch
    { serviceName := s, variableUsages := [], requires := none
      operation := { definitions := [] } }

/-- A sample collected field used by concrete witnesses. -/
def sampleField (n : String) : Field :=
  { scope := { parentType := "User", possibleTypes := ["User"] }
    fieldNode := .field none n [] [] none
    fieldDef := { name := n, type := .named "String" } }

/-- A sample field at a chosen parent type, differing from `sampleField` in
scope and return type but not in field name. -/
def sampleFieldAt (parent n : String) : Field :=
  { scope := { parentType := parent, possibleTypes := [parent] }
    fieldNode := .field none n [] [] none
    fieldDef := { name := n, type := .named "Int" } }

/-- A sample subfield environment used by concrete witnesses. -/
def sampleSubfieldEnv : SubfieldEnv :=
  { typeMetadata := fun _ => none
    isObjectType := fun _ => true
    getBaseService := fun _ => some "accounts"
    getOwningService := fun _ _ => some "accounts"
    getKeyFields := fun _ _ => []
    getRequiredFields := fun _ _ _ => [] }

/-- Well-formedness of the internal-fragment table: every stored fragment's
replacement selection set is the single spread of its own name — the shape
`get_internal_fragment` stores. -/
def wellFormedFragmentTable (ctx : QueryPlanningContext) : Prop :=
  ∀ p ∈ ctx.internalFragments,
    (Prod.snd p).selectionSet
      = [SelectionNode.fragmentSpread (Prod.snd p).name []]

/-- A sample planning environment used by concrete witnesses: the selection
set of a field set is its field nodes, variable usages are empty, and root
splitting yields one `accounts` group. -/
def samplePlanningEnv : PlanningEnv :=
  { selectionSetFromFieldSet := fun fields _ => fields.map Field.fieldNode
    getVariableUsages := fun _ _ => []
    splitRootGroups := fun _ => .ok [FetchGroup.new "accounts"]
    rootType := "Query" }

/-! Helper lemmas about the `FetchGroup` state transformers. -/

@[simp]
theorem new_serviceName (s : String) : (FetchGroup.new s).serviceName = s := rfl

@[simp]
theorem new_fields (s : String) : (FetchGroup.new s).fields = [] := rfl

@[simp]
theorem new_requiredFields (s : String) : (FetchGroup.new s).requiredFields = [] := rfl

@[simp]
theorem new_providedFields (s : String) : (FetchGroup.new s).providedFields = [] := rfl

@[simp]
theorem new_mergeAt (s : String) : (FetchGroup.new s).mergeAt = none := rfl

@[simp]
theorem new_dependentGroupsByService (s : String) :
    (FetchGroup.new s).dependentGroupsByService = [] := rfl

@[simp]
theorem new_otherDependentGroups (s : String) :
    (FetchGroup.new s).otherDependentGroups = [] := rfl

@[simp]
theorem setMergeAt_serviceName (g : FetchGroup) (m : Option ResponsePath) :
    (g.setMergeAt m).serviceName = g.serviceName := by cases g; rfl

@[simp]
theorem setMergeAt_fields (g : FetchGroup) (m : Option ResponsePath) :
    (g.setMergeAt m).fields = g.fields := by cases g; rfl

@[simp]
theorem setMergeAt_requiredFields (g : FetchGroup) (m : Option ResponsePath) :
    (g.setMergeAt m).requiredFields = g.requiredFields := by cases g; rfl

@[simp]
theorem setMergeAt_providedFields (g : FetchGroup) (m : Option ResponsePath) :
    (g.setMergeAt m).providedFields = g.providedFields := by cases g; rfl

@[simp]
theorem setMergeAt_mergeAt (g : FetchGroup) (m : Option ResponsePath) :
    (g.setMergeAt m).mergeAt = m := by cases g; rfl

@[simp]
theorem setMergeAt_dependentGroupsByService (g : FetchGroup) (m : Option ResponsePath) :
    (g.setMergeAt m).dependentGroupsByService = g.dependentGroupsByService := by
  cases g; rfl

@[simp]
theorem setMergeAt_otherDependentGroups (g : FetchGroup) (m : Option ResponsePath) :
    (g.setMergeAt m).otherDependentGroups = g.otherDependentGroups := by
  cases g; rfl

@[simp]
theorem setRequiredFields_serviceName (g : FetchGroup) (r : FieldSet) :
    (g.setRequiredFields r).serviceName = g.serviceName := by cases g; rfl

@[simp]
theorem setRequiredFields_fields (g : FetchGroup) (r : FieldSet) :
    (g.setRequiredFields r).fields = g.fields := by cases g; rfl

@[simp]
theorem setRequiredFields_requiredFields (g : FetchGroup) (r : FieldSet) :
    (g.setRequiredFields r).requiredFields = r := by cases g; rfl

@[simp]
theorem setRequiredFields_providedFields (g : FetchGroup) (r : FieldSet) :
    (g.setRequiredFields r).providedFields = g.providedFields := by cases g; rfl

@[simp]
theorem setRequiredFields_mergeAt (g : FetchGroup) (r : FieldSet) :
    (g.setRequiredFields r).mergeAt = g.mergeAt := by cases g; rfl

@[simp]
theorem setRequiredFields_dependentGroupsByService (g : FetchGroup) (r : FieldSet) :
    (g.setRequiredFields r).dependentGroupsByService = g.dependentGroupsByService := by
  cases g; rfl

@[simp]
theorem setRequiredFields_otherDependentGroups (g : FetchGroup) (r : FieldSet) :
    (g.setRequiredFields r).otherDependentGroups = g.otherDependentGroups := by
  cases g; rfl

@[simp]
theorem setFields_serviceName (g : FetchGroup) (f : FieldSet) :
    (g.setFields f).serviceName = g.serviceName := by cases g; rfl

@[simp]
theorem setFields_fields (g : FetchGroup) (f : FieldSet) :
    (g.setFields f).fields = f := by cases g; rfl

@[simp]
theorem setFields_requiredFields (g : FetchGroup) (f : FieldSet) :
    (g.setFields f).requiredFields = g.requiredFields := by cases g; rfl

@[simp]
theorem setFields_mergeAt (g : FetchGroup) (f : FieldSet) :
    (g.setFields f).mergeAt = g.mergeAt := by cases g; rfl

@[simp]
theorem setFields_dependentGroupsByService (g : FetchGroup) (f : FieldSet) :
    (g.setFields f).dependentGroupsByService = g.dependentGroupsByService := by
  cases g; rfl

@[simp]
theorem setProvidedFields_serviceName (g : FetchGroup) (p : FieldSet) :
    (g.setProvidedFields p).serviceName = g.serviceName := by
  cases g; rfl

@[simp]
theorem setProvidedFields_providedFields (g : FetchGroup) (p : FieldSet) :
    (g.setProvidedFields p).providedFields = p := by
  cases g; rfl

@[simp]
theorem setDeps_serviceName (g : FetchGroup) (d : List (String × FetchGroup)) :
    (g.setDependentGroupsByService d).serviceName = g.serviceName := by cases g; rfl

@[simp]
theorem setDeps_fields (g : FetchGroup) (d : List (String × FetchGroup)) :
    (g.setDependentGroupsByService d).fields = g.fields := by cases g; rfl

@[simp]
theorem setDeps_requiredFields (g : FetchGroup) (d : List (String × FetchGroup)) :
    (g.setDependentGroupsByService d).requiredFields = g.requiredFields := by
  cases g; rfl

@[simp]
theorem setDeps_mergeAt (g : FetchGroup) (d : List (String × FetchGroup)) :
    (g.setDependentGroupsByService d).mergeAt = g.mergeAt := by cases g; rfl

@[simp]
theorem setDeps_dependentGroupsByService (g : FetchGroup)
    (d : List (String × FetchGroup)) :
    (g.setDependentGroupsByService d).dependentGroupsByService = d := by
  cases g; rfl

/-- Concatenation distributes over the `flat_map` polyfill. -/
theorem flatMapList_append {α β : Type} (l₁ l₂ : List α) (f : α → List β) :
    flatMapList (l₁ ++ l₂) f = flatMapList l₁ f ++ flatMapList l₂ f := by
  induction l₁ with
  | nil => simp [flatMapList]
  | cons x rest ih => simp [flatMapList, ih]

/-- Setting a group's `required_fields` to its current value is the
identity. -/
theorem setRequiredFields_self (g : FetchGroup) :
    g.setRequiredFields g.requiredFields = g := by
  cases g; rfl

/-- Setting a group's `fields` to its current value is the identity. -/
theorem setFields_self (g : FetchGroup) : g.setFields g.fields = g := by
  cases g; rfl

/-- Setting empty `required_fields` on a group whose `required_fields` is
already empty is the identity. -/
theorem setRequiredFields_nil_of (g : FetchGroup) (h : g.requiredFields = []) :
    g.setRequiredFields [] = g := by
  rw [← h]
  exact setRequiredFields_self g

/-- Normal form of `dependent_group_for_service`: the child is the base
child with the requested fields appended to its `required_fields`, the
parent gains the same fields and stores the child under the service key.
(When `reqs` is empty both appends are no-ops, matching the source's
skipped branch; when the base child's `required_fields` is empty the
source's assignment equals the append.) -/
theorem dependentGroupForService_eq (g : FetchGroup) (svc : String)
    (reqs : FieldSet) :
    g.dependentGroupForService svc reqs =
      ((g.setFields (g.fields ++ reqs)).setDependentGroupsByService
        (storeEntry g.dependentGroupsByService svc
          ((childBase g svc).setRequiredFields
            ((childBase g svc).requiredFields ++ reqs))),
       (childBase g svc).setRequiredFields
         ((childBase g svc).requiredFields ++ reqs)) := by
  unfold FetchGroup.dependentGroupForService childBase
  cases hl : lookupEntry g.dependentGroupsByService svc with
  | none =>
      cases hr : reqs.isEmpty
      · simp_all
      · rw [List.isEmpty_iff] at hr
        subst hr
        simp [setRequiredFields_self, setFields_self, setRequiredFields_nil_of]
  | some c₀ =>
      cases hr : reqs.isEmpty
      · cases hc : c₀.requiredFields.isEmpty
        · simp_all
        · rw [List.isEmpty_iff] at hc
          simp_all
      · rw [List.isEmpty_iff] at hr
        subst hr
        simp [setRequiredFields_self, setFields_self, setRequiredFields_nil_of]

/-- Membership in a stored table: either the stored pair or an untouched
entry. -/
theorem mem_storeEntry (m : List (String × FetchGroup)) (k : String)
    (v : FetchGroup) (p : String × FetchGroup) (hp : p ∈ storeEntry m k v) :
    p = (k, v) ∨ p ∈ m := by
  induction m with
  | nil =>
      simp [storeEntry] at hp
      exact Or.inl hp
  | cons e rest ih =>
      by_cases he : e.1 == k
      · rw [show storeEntry (e :: rest) k v = (k, v) :: rest by
            cases e; simp [storeEntry, he]] at hp
        rcases List.mem_cons.mp hp with h | h
        · exact Or.inl h
        · exact Or.inr (List.mem_cons_of_mem _ h)
      · rw [show storeEntry (e :: rest) k v = e :: storeEntry rest k v by
            cases e; simp [storeEntry]; intro hk; simp [hk] at he] at hp
        rcases List.mem_cons.mp hp with h | h
        · exact Or.inr (h ▸ List.mem_cons_self _ _)
        · rcases ih h with h' | h'
          · exact Or.inl h'
          · exact Or.inr (List.mem_cons_of_mem _ h')

/-- A successful lookup exhibits a table entry. -/
theorem lookupEntry_mem (m : List (String × FetchGroup)) (k : String)
    (v : FetchGroup) (h : lookupEntry m k = some v) : (k, v) ∈ m := by
  induction m with
  | nil => simp [lookupEntry] at h
  | cons e rest ih =>
      cases e with
      | mk k' v' =>
          by_cases he : k' == k
          · have hk : k' = k := by simpa using he
            simp [lookupEntry, he] at h
            subst hk h
            exact List.mem_cons_self _ _
          · simp [lookupEntry, he] at h
            exact List.mem_cons_of_mem _ (ih h)

/-- Looking up the key just stored returns the stored value. -/
theorem lookupEntry_storeEntry_self (m : List (String × FetchGroup))
    (k : String) (v : FetchGroup) :
    lookupEntry (storeEntry m k v) k = some v := by
  induction m with
  | nil => simp [storeEntry, lookupEntry]
  | cons e rest ih =>
      cases e with
      | mk k' v' =>
          by_cases he : k' == k
          · simp [storeEntry, lookupEntry, he]
          · simp [storeEntry, lookupEntry, he, ih]

/-- Storing over an existing key keeps the table's key sequence. -/
theorem storeEntry_map_fst_of_mem (m : List (String × FetchGroup))
    (k : String) (v w : FetchGroup) (h : lookupEntry m k = some w) :
    (storeEntry m k v).map Prod.fst = m.map Prod.fst := by
  induction m with
  | nil => simp [lookupEntry] at h
  | cons e rest ih =>
      cases e with
      | mk k' v' =>
          by_cases he : k' == k
          · have hk : k' = k := by simpa using he
            subst hk
            simp [storeEntry, he]
          · simp [lookupEntry, he] at h
            simp [storeEntry, he, ih h]

/-- Every field matches itself (the matcher compares names). -/
theorem matchesField_self (f : Field) : matchesField f f = true := by
  simp [matchesField]

/-- A successful generic table lookup exhibits an entry. -/
theorem tableLookup_mem {α : Type} (m : List (String × α)) (k : String)
    (v : α) (h : tableLookup m k = some v) : (k, v) ∈ m := by
  induction m with
  | nil => simp [tableLookup] at h
  | cons e rest ih =>
      cases e with
      | mk k' v' =>
          by_cases he : k' == k
          · have hk : k' = k := by simpa using he
            simp [tableLookup, he] at h
            subst hk h
            exact List.mem_cons_self _ _
          · simp [tableLookup, he] at h
            exact List.mem_cons_of_mem _ (ih h)

/-- Appending a fresh key to a table makes the key resolvable. -/
theorem tableLookup_append_of_none {α : Type} (m : List (String × α))
    (k : String) (v : α) (h : tableLookup m k = none) :
    tableLookup (m ++ [(k, v)]) k = some v := by
  induction m with
  | nil => simp [tableLookup]
  | cons e rest ih =>
      cases e with
      | mk k' v' =>
          by_cases he : k' == k
          · simp [tableLookup, he] at h
          · simp [tableLookup, he] at h ⊢
            exact ih h

/-- Every fragment definition is structurally equal to itself. -/
theorem fragEq_self (d : FragmentDefinitionNode) : fragEq d d = true := by
  simp [fragEq]

/-- `set.add` never removes an element. -/
theorem mem_fragmentSetAdd (s : List FragmentDefinitionNode)
    (d x : FragmentDefinitionNode) (h : x ∈ s) : x ∈ fragmentSetAdd s d := by
  unfold fragmentSetAdd
  split
  · exact h
  · exact List.mem_append_left _ h

/-- After `set.add`, some stored element is structurally equal to the added
definition. -/
theorem fragmentSetAdd_contains (s : List FragmentDefinitionNode)
    (d : FragmentDefinitionNode) :
    ∃ d' ∈ fragmentSetAdd s d, fragEq d' d = true := by
  unfold fragmentSetAdd
  by_cases h : s.any (fun d' => fragEq d' d)
  · rcases List.any_eq_true.mp h with ⟨d', hd', he⟩
    exact ⟨d', by simp [h, hd'], he⟩
  · exact ⟨d, by simp [h], fragEq_self d⟩

/-- `set.update` never removes an element of the left set. -/
theorem mem_fragmentSetUnion (s t : List FragmentDefinitionNode)
    (x : FragmentDefinitionNode) (h : x ∈ s) : x ∈ fragmentSetUnion s t := by
  induction t generalizing s with
  | nil => exact h
  | cons d rest ih =>
      simp only [fragmentSetUnion, List.foldl] at ih ⊢
      exact ih _ (mem_fragmentSetAdd _ _ _ h)

/-! Claim theorems. -/

/-- C1: the claim says every root field of a mutation — including the first —
either extends the most recent group or appends a new one.  The code instead
evaluates `fetch_groups[-1]` before any group exists, so the very first root
field raises `IndexError`: splitting a mutation with a single root field owned
by the `reviews` service errors instead of emitting one group. -/
theorem split_root_fields_serially_raises_on_first_field :
    splitRootFieldsSerially
        [{ fieldNode := .field none "createReview" [] [] none
           owningService := some "reviews" }]
      = .error .indexError := rfl

/-- C2: the claim says the first occurrence of a fragment spread with a
non-empty scope intersection is processed without raising.  The code's
visited-set check `visited_fragment_names[fragment_name]` is a plain-`dict`
subscript on a dictionary that starts empty, so the first occurrence raises
`KeyError`: collecting a selection set holding one spread of fragment `F`
(condition `T`, matching the enclosing scope) errors. -/
theorem collect_fields_first_spread_raises_keyError :
    collectFields
        (QueryPlanningContext.init
          [("F", { name := "F", typeCondition := "T", selectionSet := [] })]
          false (fun _ => ["T"]) (fun _ _ => none))
        9 { parentType := "T", possibleTypes := ["T"] }
        [.fragmentSpread "F" []] [] []
      = .error (.keyError "F") := rfl

/-- C6: `flat_wrap` contract — rewrapping a `Parallel` result with one more
node equals wrapping the extended list; the empty list is a programmer
error; a singleton is returned directly; with two or more nodes the
`Parallel` branch flattens same-kind immediate children while the
`Sequence` branch leaves its children unflattened. -/
theorem flat_wrap_contract :
    (∀ (xs : List PlanNode) (y n : PlanNode), xs ≠ [] →
        flatWrap .parallel xs = .ok n →
        flatWrap .parallel [n, y] = flatWrap .parallel (xs ++ [y])) ∧
    (∀ kind : WrapKind,
        flatWrap kind [] =
          .error (.programmingError
            "programming error: should always be called with nodes")) ∧
    (∀ (kind : WrapKind) (n : PlanNode), flatWrap kind [n] = .ok n) ∧
    (∀ nodes : List PlanNode, 2 ≤ nodes.length →
        flatWrap .parallel nodes =
            .ok (.parallel (flatMapList nodes expandParallel)) ∧
        flatWrap .sequence nodes = .ok (.sequence nodes)) := by
  refine ⟨?_, ?_, ?_, ?_⟩
  · intro xs y n hxs h
    match xs with
    | [] => exact absurd rfl hxs
    | [x] =>
        have hn : x = n := by simpa [flatWrap] using h
        subst hn
        rfl
    | x₁ :: x₂ :: rest =>
        have hn :
            PlanNode.parallel (flatMapList (x₁ :: x₂ :: rest) expandParallel)
              = n := by
          simpa [flatWrap] using h
        subst hn
        show Except.ok (PlanNode.parallel _) = _
        have hform :
            (x₁ :: x₂ :: rest) ++ [y] = x₁ :: x₂ :: (rest ++ [y]) := by simp
        rw [hform]
        simp [flatWrap, flatMapList, expandParallel, flatMapList_append,
          List.append_assoc]
  · intro kind
    cases kind <;> rfl
  · intro kind n
    cases kind <;> rfl
  · intro nodes h
    match nodes with
    | [] => simp at h
    | [n] => simp at h
    | n₁ :: n₂ :: rest => exact ⟨rfl, rfl⟩

/-- Witness for C6 at concrete inputs: rewrapping `Parallel` over two
fetches with a third appended, plus the flattening/non-flattening branch at
a two-node list. -/
theorem flat_wrap_contract_witness :
    ([sampleFetch "a", sampleFetch "b"] ≠ ([] : List PlanNode)) ∧
    flatWrap .parallel
        [.parallel (flatMapList [sampleFetch "a", sampleFetch "b"] expandParallel),
         sampleFetch "c"]
      = flatWrap .parallel ([sampleFetch "a", sampleFetch "b"] ++ [sampleFetch "c"]) ∧
    (2 ≤ [sampleFetch "a", sampleFetch "b"].length ∧
      flatWrap .sequence [sampleFetch "a", sampleFetch "b"]
        = .ok (.sequence [sampleFetch "a", sampleFetch "b"])) := by
  refine ⟨by simp, ?_, by simp, ?_⟩
  · exact flat_wrap_contract.1 [sampleFetch "a", sampleFetch "b"]
      (sampleFetch "c") _ (by simp) rfl
  · exact (flat_wrap_contract.2.2.2 [sampleFetch "a", sampleFetch "b"] (by simp)).2

/-- One `dependent_group_for_service` call preserves the parent-coverage
invariant. -/
theorem dependentGroupForService_preserves_cover (g : FetchGroup)
    (svc : String) (reqs : FieldSet)
    (h : parentCoversChildRequirements g) :
    parentCoversChildRequirements (g.dependentGroupForService svc reqs).1 := by
  rw [dependentGroupForService_eq]
  intro p hp f hf
  simp only [setDeps_dependentGroupsByService] at hp
  simp only [setDeps_fields, setFields_fields]
  rcases mem_storeEntry _ _ _ _ hp with hpe | hpm
  · subst hpe
    simp only [setRequiredFields_requiredFields] at hf
    rcases List.mem_append.mp hf with hfb | hfr
    · cases hcb : lookupEntry g.dependentGroupsByService svc with
      | none => simp [childBase, hcb] at hfb
      | some c₀ =>
          rcases h (svc, c₀) (lookupEntry_mem _ _ _ hcb) f
              (by simpa [childBase, hcb] using hfb) with ⟨f', hf', hm⟩
          exact ⟨f', List.mem_append_left _ hf', hm⟩
    · exact ⟨f, List.mem_append_right _ hfr, matchesField_self f⟩
  · rcases h p hpm f hf with ⟨f', hf', hm⟩
    exact ⟨f', List.mem_append_left _ hf', hm⟩

/-- C10: a dependent group created by `dependent_group_for_service` starts
with `merge_at` copied from its parent at that moment, empty `fields` and
`provided_fields`, and no dependent groups of its own; a later call for the
same service leaves the stored child's `merge_at` and `service_name`
unchanged. -/
theorem dependent_group_creation_invariants (g : FetchGroup) (svc : String)
    (reqs : FieldSet) :
    (lookupEntry g.dependentGroupsByService svc = none →
      (g.dependentGroupForService svc reqs).2.serviceName = svc ∧
      (g.dependentGroupForService svc reqs).2.mergeAt = g.mergeAt ∧
      (g.dependentGroupForService svc reqs).2.fields = [] ∧
      (g.dependentGroupForService svc reqs).2.providedFields = [] ∧
      (g.dependentGroupForService svc reqs).2.dependentGroups = []) ∧
    (∀ c₀, lookupEntry g.dependentGroupsByService svc = some c₀ →
      (g.dependentGroupForService svc reqs).2.mergeAt = c₀.mergeAt ∧
      (g.dependentGroupForService svc reqs).2.serviceName = c₀.serviceName) := by
  rw [dependentGroupForService_eq]
  constructor
  · intro hl
    simp [childBase, hl, FetchGroup.dependentGroups]
  · intro c₀ hl
    simp [childBase, hl]

/-- Witness for C10: a fresh parent on `accounts` with `merge_at = ["me"]`
gains a child for `reviews` carrying the parent's `merge_at` and empty
state; a second call for the same service preserves the stored child's
`merge_at` and `service_name`. -/
theorem dependent_group_creation_invariants_witness :
    (lookupEntry ((FetchGroup.new "accounts").setMergeAt
        (some ["me"])).dependentGroupsByService "reviews" = none ∧
      (((FetchGroup.new "accounts").setMergeAt
          (some ["me"])).dependentGroupForService "reviews" []).2.mergeAt
        = ((FetchGroup.new "accounts").setMergeAt (some ["me"])).mergeAt) ∧
    (lookupEntry (((FetchGroup.new "accounts").setMergeAt
          (some ["me"])).dependentGroupForService "reviews"
          []).1.dependentGroupsByService "reviews"
        = some ((FetchGroup.new "reviews").setMergeAt (some ["me"])) ∧
      ((((FetchGroup.new "accounts").setMergeAt
            (some ["me"])).dependentGroupForService "reviews"
            []).1.dependentGroupForService "reviews" []).2.serviceName
        = ((FetchGroup.new "reviews").setMergeAt (some ["me"])).serviceName) := by
  constructor
  · exact ⟨rfl,
      ((dependent_group_creation_invariants
        ((FetchGroup.new "accounts").setMergeAt (some ["me"]))
        "reviews" []).1 rfl).2.1⟩
  · exact ⟨rfl,
      ((dependent_group_creation_invariants
        (((FetchGroup.new "accounts").setMergeAt
          (some ["me"])).dependentGroupForService "reviews" []).1
        "reviews" []).2
        ((FetchGroup.new "reviews").setMergeAt (some ["me"])) rfl).2⟩

/-- C3: repeated `dependent_group_for_service` calls for one service return
the same stored child — the key sequence does not grow, the child stays
under the service key — appending each non-empty `reqs` to the child's
`required_fields`; the same selections are appended to the parent's
`fields`, so the parent-coverage invariant (every child requirement has a
matching parent field) is preserved. -/
theorem dependent_group_dedup_and_parent_fields (g : FetchGroup)
    (svc : String) (reqs₁ reqs₂ : FieldSet) (g₁ c₁ g₂ c₂ : FetchGroup)
    (h₁ : g.dependentGroupForService svc reqs₁ = (g₁, c₁))
    (h₂ : g₁.dependentGroupForService svc reqs₂ = (g₂, c₂)) :
    g₁.fields = g.fields ++ reqs₁ ∧
    g₂.fields = g₁.fields ++ reqs₂ ∧
    lookupEntry g₁.dependentGroupsByService svc = some c₁ ∧
    lookupEntry g₂.dependentGroupsByService svc = some c₂ ∧
    g₂.dependentGroupsByService.map Prod.fst
      = g₁.dependentGroupsByService.map Prod.fst ∧
    c₂.serviceName = c₁.serviceName ∧
    c₂.requiredFields = c₁.requiredFields ++ reqs₂ ∧
    (parentCoversChildRequirements g → parentCoversChildRequirements g₂) := by
  have hcov : parentCoversChildRequirements g →
      parentCoversChildRequirements g₂ := by
    intro h
    have h₁' := dependentGroupForService_preserves_cover g svc reqs₁ h
    rw [h₁] at h₁'
    have h₂' := dependentGroupForService_preserves_cover g₁ svc reqs₂ h₁'
    rw [h₂] at h₂'
    exact h₂'
  rw [dependentGroupForService_eq] at h₁ h₂
  injection h₁ with hA hB
  subst hA
  subst hB
  injection h₂ with hA₂ hB₂
  subst hA₂
  subst hB₂
  have hcb : childBase
      ((g.setFields (g.fields ++ reqs₁)).setDependentGroupsByService
        (storeEntry g.dependentGroupsByService svc
          ((childBase g svc).setRequiredFields
            ((childBase g svc).requiredFields ++ reqs₁)))) svc
      = (childBase g svc).setRequiredFields
          ((childBase g svc).requiredFields ++ reqs₁) := by
    simp [childBase, lookupEntry_storeEntry_self]
  refine ⟨by simp, by simp, ?_, ?_, ?_, ?_, ?_, hcov⟩
  · simp [lookupEntry_storeEntry_self]
  · simp [lookupEntry_storeEntry_self]
  · simp only [setDeps_dependentGroupsByService]
    exact storeEntry_map_fst_of_mem _ _ _ _
      (lookupEntry_storeEntry_self _ _ _)
  · rw [hcb]
    simp
  · rw [hcb]
    simp

/-- Witness for C3: two calls for `reviews` on a fresh `accounts` parent,
requesting `id` then `email`; the parent's fields gain the requested
selections and the coverage invariant holds afterwards (it holds vacuously
on the fresh parent). -/
theorem dependent_group_dedup_and_parent_fields_witness :
    ((FetchGroup.new "accounts").dependentGroupForService "reviews"
        [sampleField "id"]).1.fields
      = (FetchGroup.new "accounts").fields ++ [sampleField "id"] ∧
    parentCoversChildRequirements
      ((((FetchGroup.new "accounts").dependentGroupForService "reviews"
          [sampleField "id"]).1).dependentGroupForService "reviews"
          [sampleField "email"]).1 := by
  have h := dependent_group_dedup_and_parent_fields
    (FetchGroup.new "accounts") "reviews" [sampleField "id"]
    [sampleField "email"]
    ((FetchGroup.new "accounts").dependentGroupForService "reviews"
      [sampleField "id"]).1
    ((FetchGroup.new "accounts").dependentGroupForService "reviews"
      [sampleField "id"]).2
    ((((FetchGroup.new "accounts").dependentGroupForService "reviews"
        [sampleField "id"]).1).dependentGroupForService "reviews"
        [sampleField "email"]).1
    ((((FetchGroup.new "accounts").dependentGroupForService "reviews"
        [sampleField "id"]).1).dependentGroupForService "reviews"
        [sampleField "email"]).2
    rfl rfl
  refine ⟨h.1, h.2.2.2.2.2.2.2 ?_⟩
  intro p hp
  simp [FetchGroup.new, FetchGroup.dependentGroupsByService] at hp

/-- C9: `matches_field` compares only the two field definitions' names, so
the `split_subfields` checks — whether the parent group provides a field,
and whether every required field is satisfied by `provided_fields` — hold
exactly when a name match exists, and the routing decision is unchanged
when `provided_fields` is replaced by any list with the same name sequence
(parent types and arguments are ignored). -/
theorem matches_field_name_only :
    (∀ f g : Field, matchesField f g = true ↔
        f.fieldDef.name = g.fieldDef.name) ∧
    (∀ (field : Field) (provided : FieldSet),
        provided.any (matchesField field) = true ↔
          ∃ p ∈ provided, field.fieldDef.name = p.fieldDef.name) ∧
    (∀ required provided : FieldSet,
        required.all (fun r => provided.any (matchesField r)) = true ↔
          ∀ r ∈ required, ∃ p ∈ provided,
            r.fieldDef.name = p.fieldDef.name) ∧
    (∀ (env : SubfieldEnv) (parentGroup : FetchGroup) (field : Field)
        (provided' : FieldSet),
        provided'.map (fun p => p.fieldDef.name)
            = parentGroup.providedFields.map (fun p => p.fieldDef.name) →
        groupForFieldSubfields env (parentGroup.setProvidedFields provided')
            field
          = groupForFieldSubfields env parentGroup field) := by
  have hname : ∀ (x : Field) (l : FieldSet),
      l.any (matchesField x)
        = (l.map (fun p => p.fieldDef.name)).any
            (fun n => x.fieldDef.name == n) := by
    intro x l
    induction l with
    | nil => rfl
    | cons a rest ih => simp [matchesField, ih]
  refine ⟨?_, ?_, ?_, ?_⟩
  · intro f g
    simp [matchesField]
  · intro field provided
    simp [List.any_eq_true, matchesField]
  · intro required provided
    simp [List.all_eq_true, List.any_eq_true, matchesField]
  · intro env parentGroup field provided' hmap
    have hany : ∀ x : Field,
        provided'.any (matchesField x)
          = parentGroup.providedFields.any (matchesField x) := by
      intro x
      rw [hname, hname, hmap]
    unfold groupForFieldSubfields
    simp only [setProvidedFields_serviceName, setProvidedFields_providedFields,
      hany]

/-- Witness for C9: replacing a `reviews` group's provided `username` field
by a same-named field with different scope and return type leaves the
routing decision unchanged. -/
theorem matches_field_name_only_witness :
    [sampleFieldAt "Review" "username"].map (fun p => p.fieldDef.name)
        = ((FetchGroup.new "reviews").setProvidedFields
            [sampleField "username"]).providedFields.map
            (fun p => p.fieldDef.name) ∧
    groupForFieldSubfields sampleSubfieldEnv
        (((FetchGroup.new "reviews").setProvidedFields
          [sampleField "username"]).setProvidedFields
          [sampleFieldAt "Review" "username"]) (sampleField "id")
      = groupForFieldSubfields sampleSubfieldEnv
          ((FetchGroup.new "reviews").setProvidedFields
            [sampleField "username"]) (sampleField "id") := by
  constructor
  · rfl
  · exact matches_field_name_only.2.2.2 sampleSubfieldEnv
      ((FetchGroup.new "reviews").setProvidedFields [sampleField "username"])
      (sampleField "id") [sampleFieldAt "Review" "username"] rfl

/-- C8: with auto-fragmentization on and a sub-group of more than two
fields, `complete_field` swaps the field's selection set for the generated
fragment's spread-only selection and records the definition in the parent's
internal fragments; `get_internal_fragment` names fresh fragments
`__QueryPlanFragment_N` from the per-context counter (starting at zero and
bumped once per new fragment), and a second request with the same canonical
selection set reuses the stored fragment without touching the table or the
counter. -/
theorem auto_fragmentization_contract (env : PlanningEnv)
    (ctx : QueryPlanningContext)
    (parentFragments subGroupFragments : List FragmentDefinitionNode)
    (subGroupFields : FieldSet) (returnTypeName : String)
    (fieldNode : SelectionNode)
    (hauto : ctx.autoFragmentization = true)
    (hsize : subGroupFields.length > 2)
    (hwf : wellFormedFragmentTable ctx) :
    ((completeFieldSelection env ctx parentFragments subGroupFields
        subGroupFragments returnTypeName fieldNode).1
      = fieldNode.withSelectionSet
          (getInternalFragment
            (env.selectionSetFromFieldSet subGroupFields (some returnTypeName))
            returnTypeName ctx).1.selectionSet) ∧
    (∃ d ∈ (completeFieldSelection env ctx parentFragments subGroupFields
        subGroupFragments returnTypeName fieldNode).2.1,
      fragEq d (getInternalFragment
        (env.selectionSetFromFieldSet subGroupFields (some returnTypeName))
        returnTypeName ctx).1.definition = true) ∧
    (∀ selectionSet : SelectionSetNode,
      (getInternalFragment selectionSet returnTypeName ctx).1.selectionSet
        = [.fragmentSpread
            (getInternalFragment selectionSet returnTypeName ctx).1.name []]) ∧
    (∀ selectionSet : SelectionSetNode,
      tableLookup ctx.internalFragments (selSetKey selectionSet) = none →
        (getInternalFragment selectionSet returnTypeName ctx).1.name
            = "__QueryPlanFragment_" ++ toString ctx.internalFragmentCount ∧
        (getInternalFragment selectionSet returnTypeName ctx).1.definition
            = { name := "__QueryPlanFragment_" ++ toString ctx.internalFragmentCount
                typeCondition := returnTypeName
                selectionSet := selectionSet } ∧
        (getInternalFragment selectionSet returnTypeName
            ctx).2.internalFragmentCount
            = ctx.internalFragmentCount + 1 ∧
        getInternalFragment selectionSet returnTypeName
            (getInternalFragment selectionSet returnTypeName ctx).2
          = ((getInternalFragment selectionSet returnTypeName ctx).1,
             (getInternalFragment selectionSet returnTypeName ctx).2)) ∧
    (∀ (selectionSet : SelectionSetNode) (f₀ : InternalFragment),
      tableLookup ctx.internalFragments (selSetKey selectionSet) = some f₀ →
        getInternalFragment selectionSet returnTypeName ctx = (f₀, ctx)) ∧
    (∀ (frs : List (String × FragmentDefinitionNode)) (b : Bool)
        (pt : String → List String) (fd : String → String → Option FieldDef),
      (QueryPlanningContext.init frs b pt fd).internalFragmentCount = 0) := by
  refine ⟨?_, ?_, ?_, ?_, ?_, ?_⟩
  · simp [completeFieldSelection, hauto, hsize]
  · simp only [completeFieldSelection, hauto, hsize, Bool.true_and,
      decide_eq_true_eq, if_pos]
    rcases fragmentSetAdd_contains parentFragments
        (getInternalFragment
          (env.selectionSetFromFieldSet subGroupFields (some returnTypeName))
          returnTypeName ctx).1.definition with ⟨d, hd, he⟩
    exact ⟨d, mem_fragmentSetUnion _ _ _ hd, he⟩
  · intro selectionSet
    cases hl : tableLookup ctx.internalFragments (selSetKey selectionSet) with
    | none => simp only [getInternalFragment, hl]
    | some f₀ =>
        simp only [getInternalFragment, hl]
        exact hwf (selSetKey selectionSet, f₀) (tableLookup_mem _ _ _ hl)
  · intro selectionSet hl
    simp only [getInternalFragment, hl]
    refine ⟨trivial, trivial, trivial, ?_⟩
    simp only [getInternalFragment, tableLookup_append_of_none _ _ _ hl]
  · intro selectionSet f₀ hl
    simp only [getInternalFragment, hl]
  · intro frs b pt fd
    rfl

/-- Witness for C8: on a fresh context with auto-fragmentization enabled, a
three-field composite sub-selection on type `User` is replaced by the spread
of `__QueryPlanFragment_0`. -/
theorem auto_fragmentization_contract_witness :
    (QueryPlanningContext.init [] true (fun _ => [])
        (fun _ _ => none)).autoFragmentization = true ∧
    [sampleField "a", sampleField "b", sampleField "c"].length > 2 ∧
    (completeFieldSelection samplePlanningEnv
        (QueryPlanningContext.init [] true (fun _ => []) (fun _ _ => none))
        [] [sampleField "a", sampleField "b", sampleField "c"] []
        "User" (.field none "author" [] [] none)).1
      = SelectionNode.field none "author" [] []
          (some [.fragmentSpread "__QueryPlanFragment_0" []]) := by
  refine ⟨rfl, by decide, ?_⟩
  have h := auto_fragmentization_contract samplePlanningEnv
      (QueryPlanningContext.init [] true (fun _ => []) (fun _ _ => none))
      [] [] [sampleField "a", sampleField "b", sampleField "c"]
      "User" (.field none "author" [] [] none) rfl (by decide)
      (by intro p hp; simp [QueryPlanningContext.init] at hp)
  rw [h.1]
  rfl

/-- C4: the fetch node built by `execution_node_for_group` has non-null
`requires` exactly when the group's `required_fields` is non-empty; in that
case the operation document is a query whose variable definitions start
with `$representations: [_Any!]!` followed by the group's other variable
definitions and whose single top-level selection is
`_entities(representations: $representations)` around the group's selection
set; with empty `required_fields` the node gets `requires = None` and a
plain operation of the client operation's kind.  For a group with no
dependents and no `merge_at`, `execution_node_for_group` returns exactly
this fetch node. -/
theorem entity_fetch_shape (env : PlanningEnv) (operationKind : OperationType)
    (group : FetchGroup) (parentType : Option String) :
    ((fetchNodeForGroup env operationKind group parentType).requires = none
        ↔ group.requiredFields = []) ∧
    (group.requiredFields ≠ [] →
      (fetchNodeForGroup env operationKind group
          parentType).operation.definitions
        = DefinitionNode.operation
            { operation := some .query
              variableDefinitions :=
                representationsVariableDefinition ::
                  mapFetchNodeToVariableDefinitions
                    (env.getVariableUsages
                      (env.selectionSetFromFieldSet group.fields parentType)
                      group.internalFragments)
              selectionSet :=
                [SelectionNode.field none "_entities"
                  [("representations", "representations")] []
                  (some (env.selectionSetFromFieldSet group.fields parentType))] }
          :: group.internalFragments.map DefinitionNode.fragment) ∧
    (group.requiredFields = [] →
      (fetchNodeForGroup env operationKind group parentType).requires = none ∧
      (fetchNodeForGroup env operationKind group
          parentType).operation.definitions
        = DefinitionNode.operation
            { operation := some operationKind
              variableDefinitions :=
                mapFetchNodeToVariableDefinitions
                  (env.getVariableUsages
                    (env.selectionSetFromFieldSet group.fields parentType)
                    group.internalFragments)
              selectionSet := env.selectionSetFromFieldSet group.fields parentType }
          :: group.internalFragments.map DefinitionNode.fragment) ∧
    (∀ fuel : Nat, group.dependentGroups = [] → group.mergeAt = none →
      executionNodeForGroup env operationKind (fuel + 1) group parentType
        = .ok (.fetch (fetchNodeForGroup env operationKind group parentType))) := by
  refine ⟨?_, ?_, ?_, ?_⟩
  · cases h : group.requiredFields <;> simp [fetchNodeForGroup, h]
  · intro h
    match hh : group.requiredFields with
    | [] => exact absurd hh h
    | r :: rest =>
        simp [fetchNodeForGroup, hh, operationForEntitiesFetch]
  · intro h
    simp [fetchNodeForGroup, h, operationForRootFetch]
  · intro fuel hdep hmerge
    simp [executionNodeForGroup, hdep, hmerge]

/-- Witness for C4 at a concrete entity group on `reviews` requiring `id`:
`requires` is present and the operation document is the `_entities` query
with the `$representations: [_Any!]!` definition first. -/
theorem entity_fetch_shape_witness :
    ((FetchGroup.new "reviews").setRequiredFields
        [sampleField "id"]).requiredFields ≠ [] ∧
    (fetchNodeForGroup samplePlanningEnv .query
        ((FetchGroup.new "reviews").setRequiredFields [sampleField "id"])
        none).operation.definitions
      = [DefinitionNode.operation
          { operation := some .query
            variableDefinitions := [representationsVariableDefinition]
            selectionSet :=
              [SelectionNode.field none "_entities"
                [("representations", "representations")] [] (some [])] }] := by
  refine ⟨by simp, ?_⟩
  exact (entity_fetch_shape samplePlanningEnv .query
      ((FetchGroup.new "reviews").setRequiredFields [sampleField "id"])
      none).2.1 (by simp)

/-- C7: a subscription operation is rejected with the subscription
`GraphQLError` carrying the operation node, never yields a plan, and the
outcome does not depend on the collection/splitting environment (the check
happens before those stages run). -/
theorem subscription_rejected (env : PlanningEnv)
    (operation : ClientOperation) (fuel : Nat)
    (h : operation.operation = OperationType.subscription) :
    buildQueryPlan env operation fuel
      = .error (.graphQLError
          "Query planning does not support subscriptions for now."
          [.clientOp operation]) ∧
    (∀ plan : QueryPlan, buildQueryPlan env operation fuel ≠ .ok plan) ∧
    (∀ env' : PlanningEnv,
      buildQueryPlan env' operation fuel = buildQueryPlan env operation fuel) := by
  refine ⟨?_, ?_, ?_⟩
  · simp [buildQueryPlan, h]
  · intro plan hplan
    simp [buildQueryPlan, h] at hplan
  · intro env'
    simp [buildQueryPlan, h]

/-- Witness for C7: a concrete subscription operation is rejected. -/
theorem subscription_rejected_witness :
    ({ operation := .subscription, selectionSet := [] } :
        ClientOperation).operation = OperationType.subscription ∧
    buildQueryPlan samplePlanningEnv
        { operation := .subscription, selectionSet := [] } 3
      = .error (.graphQLError
          "Query planning does not support subscriptions for now."
          [.clientOp { operation := .subscription, selectionSet := [] }]) := by
  exact ⟨rfl, (subscription_rejected samplePlanningEnv
    { operation := .subscription, selectionSet := [] } 3 rfl).1⟩

/-- `execution_node_for_group` never returns a `Parallel` node: a group
becomes a `Fetch`, a `Flatten`, or a two-element `Sequence`. -/
theorem executionNodeForGroup_not_parallel (env : PlanningEnv)
    (operationKind : OperationType) (fuel : Nat) (group : FetchGroup)
    (parentType : Option String) (ns : List PlanNode)
    (h : executionNodeForGroup env operationKind fuel group parentType
      = .ok (.parallel ns)) : False := by
  match fuel with
  | 0 => simp [executionNodeForGroup] at h
  | fuel + 1 =>
      simp only [executionNodeForGroup] at h
      by_cases hdep : group.dependentGroups.length > 0
      · rw [if_pos hdep] at h
        cases hm : group.dependentGroups.mapM
            (fun dependentGroup =>
              executionNodeForGroup env operationKind fuel dependentGroup
                none) with
        | error e => rw [hm] at h; simp at h
        | ok dependentNodes =>
            rw [hm] at h
            dsimp only at h
            cases hw : flatWrap .parallel dependentNodes with
            | error e => rw [hw] at h; simp at h
            | ok wrapped =>
                rw [hw] at h
                simp [flatWrap] at h
      · rw [if_neg hdep] at h
        cases hma : group.mergeAt with
        | none => rw [hma] at h; simp at h
        | some path =>
            rw [hma] at h
            dsimp only at h
            by_cases hp : path.length > 0
            · rw [if_pos hp] at h; simp at h
            · rw [if_neg hp] at h; simp at h

/-- Flattening a list with no `Parallel` element is the identity. -/
theorem flatMapList_expand_id (ns : List PlanNode)
    (h : ∀ n ∈ ns, ∀ ms, n ≠ PlanNode.parallel ms) :
    flatMapList ns expandParallel = ns := by
  induction ns with
  | nil => rfl
  | cons n rest ih =>
      have hn : expandParallel n = [n] := by
        cases n with
        | parallel ms => exact absurd rfl (h _ (List.mem_cons_self _ _) ms)
        | sequence ms => rfl
        | fetch d => rfl
        | flatten p m => rfl
      have hrest := ih fun m hm ms => h m (List.mem_cons_of_mem _ hm) ms
      simp [flatMapList, hn, hrest]

/-- A successful `mapM` over `Except` sends each output to some input. -/
theorem mapM_ok_mem {α β : Type} (f : α → Except PyErr β) (l : List α)
    (bs : List β) (h : l.mapM f = .ok bs) :
    ∀ b ∈ bs, ∃ a ∈ l, f a = .ok b := by
  induction l generalizing bs with
  | nil =>
      have hbs : bs = [] := by
        simp only [List.mapM_nil] at h
        exact (Except.ok.injEq _ _).mp h.symm
      subst hbs
      intro b hb
      simp at hb
  | cons a rest ih =>
      rw [List.mapM_cons] at h
      cases hfa : f a with
      | error e =>
          rw [hfa] at h
          simp [Bind.bind, Except.bind] at h
      | ok b₀ =>
          rw [hfa] at h
          cases hrest : rest.mapM f with
          | error e =>
              rw [hrest] at h
              simp [Bind.bind, Except.bind] at h
          | ok bs' =>
              rw [hrest] at h
              simp only [Bind.bind, Except.bind, pure, Except.pure] at h
              have hbs : bs = b₀ :: bs' :=
                ((Except.ok.injEq _ _).mp h).symm
              subst hbs
              intro b hb
              rcases List.mem_cons.mp hb with hb | hb
              · exact ⟨a, List.mem_cons_self _ _, hb ▸ hfa⟩
              · rcases ih bs' hrest b hb with ⟨a', ha', hfa'⟩
                exact ⟨a', List.mem_cons_of_mem _ ha', hfa'⟩

/-- C5: given the root groups produced by splitting and their execution
nodes, `build_query_plan` emits a plan whose node is absent for no groups,
is exactly the single node with no wrapper for one group, and is otherwise
a `Sequence` over the nodes for mutations and a `Parallel` over them for
queries (the `Parallel` flattening is the identity here because group nodes
are never `Parallel`). -/
theorem build_query_plan_top_shape (env : PlanningEnv)
    (operation : ClientOperation) (fuel : Nat) (groups : List FetchGroup)
    (nodes : List PlanNode)
    (hop : operation.operation ≠ OperationType.subscription)
    (hsplit : env.splitRootGroups
        (decide (operation.operation = OperationType.mutation)) = .ok groups)
    (hnodes : groups.mapM (fun group =>
        executionNodeForGroup env operation.operation fuel group
          (some env.rootType)) = .ok nodes) :
    (groups = [] → buildQueryPlan env operation fuel = .ok { node := none }) ∧
    (∀ n, nodes = [n] →
      buildQueryPlan env operation fuel = .ok { node := some n }) ∧
    (2 ≤ nodes.length →
      buildQueryPlan env operation fuel
        = .ok { node := some (if operation.operation = OperationType.mutation
            then PlanNode.sequence nodes else PlanNode.parallel nodes) }) := by
  have hnp : ∀ n ∈ nodes, ∀ ms, n ≠ PlanNode.parallel ms := by
    intro n hn ms hcontra
    rcases mapM_ok_mem _ _ _ hnodes n hn with ⟨g, _, hexec⟩
    exact executionNodeForGroup_not_parallel env operation.operation fuel g
      (some env.rootType) ms (hcontra ▸ hexec)
  refine ⟨?_, ?_, ?_⟩
  · intro hg
    subst hg
    have hn : nodes = [] :=
      ((Except.ok.injEq ([] : List PlanNode) nodes).mp hnodes).symm
    subst hn
    unfold buildQueryPlan
    rw [if_neg hop]
    dsimp only
    rw [hsplit]
    dsimp only
    rw [hnodes]
    simp
  · intro n hn
    subst hn
    unfold buildQueryPlan
    rw [if_neg hop]
    dsimp only
    rw [hsplit]
    dsimp only
    rw [hnodes]
    simp [flatWrap]
  · intro hlen
    match hn : nodes, hlen with
    | n₁ :: n₂ :: rest, _ =>
        subst hn
        unfold buildQueryPlan
        rw [if_neg hop]
        dsimp only
        rw [hsplit]
        dsimp only
        rw [hnodes]
        by_cases hmut : operation.operation = OperationType.mutation
        · simp [flatWrap, hmut]
        · have hid := flatMapList_expand_id (n₁ :: n₂ :: rest) hnp
          simp [flatWrap, hmut, hid]

/-- Witness for C5: one root group on `accounts` with no fields yields a
plan whose node is the bare fetch node, no wrapper. -/
theorem build_query_plan_top_shape_witness :
    (({ operation := .query, selectionSet := [] } :
        ClientOperation).operation ≠ OperationType.subscription) ∧
    buildQueryPlan samplePlanningEnv
        { operation := .query, selectionSet := [] } 1
      = .ok { node := some (.fetch (fetchNodeForGroup samplePlanningEnv
          .query (FetchGroup.new "accounts") (some "Query"))) } := by
  refine ⟨by simp, ?_⟩
  exact (build_query_plan_top_shape samplePlanningEnv
      { operation := .query, selectionSet := [] } 1
      [FetchGroup.new "accounts"]
      [.fetch (fetchNodeForGroup samplePlanningEnv .query
        (FetchGroup.new "accounts") (some "Query"))]
      (by simp) rfl rfl).2.1
    (.fetch (fetchNodeForGroup samplePlanningEnv .query
      (FetchGroup.new "accounts") (some "Query"))) rfl

end QueryPlanner
